import Mathlib

/-!
Verification development for the declarative table reconciliation engine of
`plugins/modules/oraclesql_table.py` (Ansible collection `oracle_sql`).

The module is embedded shallowly: every `cursor.execute(...)` site of the
Python source becomes a synthesized `Stmt` (a phase tag plus the exact SQL
text the f-string builds), dictionaries become association lists with
first-match lookup (`pyGet`), Python truthiness of optional values becomes
`truthyS` / `truthyI` / `truthyB`, and the two places where the source
indexes a dictionary with a key the dictionary does not carry (the
`table_info['name']` read inside `create_table`, which is handed
`module.params` carrying only `table_name`; and the `constraint['name']`
read in the constraint-drop loop of `modify_table`, whose value dicts hold
only type/column/condition/reference) are modelled as a raised `KeyError`
that aborts the trace.  `run_module` is modelled as a function of the
requested state, check mode, table existence, the desired spec, the live
schema (as the three `get_existing_*` readers shape it) and an executor that
may fail any statement with a database error text.
-/

namespace OracleSqlTable

/-- Phases of the DDL the module emits, in the order `modify_table` runs them;
`createOp` / `dropTableOp` tag the create- and drop-path statements. -/
inductive Phase
  | colAddModify
  | colDrop
  | constraintOp
  | indexOp
  | foreignKeyOp
  | propertyOp
  | createOp
  | dropTableOp
deriving DecidableEq

/-- Position of a phase in the fixed emission order of `modify_table`. -/
def Phase.idx : Phase → Nat
  | .colAddModify => 0
  | .colDrop => 1
  | .constraintOp => 2
  | .indexOp => 3
  | .foreignKeyOp => 4
  | .propertyOp => 5
  | .createOp => 6
  | .dropTableOp => 7

/-- One `cursor.execute` call: its phase and the exact SQL text. -/
structure Stmt where
  phase : Phase
  sql : String
deriving DecidableEq

/-- A Python exception that is not a `cx_Oracle.Error` (the module catches only
those), e.g. `KeyError` from a missing dictionary key. -/
inductive PyErr
  | keyError (key : String)
deriving DecidableEq

/-- Statements issued so far plus an exception that interrupted the run, if any.
`err = some _` means every statement after `stmts` was skipped. -/
structure Trace where
  stmts : List Stmt := []
  err : Option PyErr := none
deriving DecidableEq

def Trace.ofStmts (l : List Stmt) : Trace := ⟨l, none⟩

/-- Sequencing of two program fragments: an exception in the first skips the
second entirely. -/
def Trace.seq : Trace → Trace → Trace
  | ⟨s, none⟩, ⟨s2, e2⟩ => ⟨s ++ s2, e2⟩
  | ⟨s, some e⟩, _ => ⟨s, some e⟩

/-- A column of the desired spec, with the argument-spec defaults of the
module (`primary_key=False, nullable=True, unique=False`; `default`, `check`,
`comment` default to Python `None`). -/
structure Col where
  name : String
  type : String
  primary_key : Bool := false
  nullable : Bool := true
  unique : Bool := false
  default : Option String := none
  check : Option String := none
  comment : Option String := none
deriving DecidableEq

/-- A desired index (`unique=False`, `type='BTREE'` are the argument-spec
defaults). -/
structure Idx where
  name : String
  columns : List String
  unique : Bool := false
  type : String := "BTREE"
deriving DecidableEq

/-- A desired foreign key (`on_delete` defaults to `'NO ACTION'`). -/
structure FK where
  name : String
  columns : List String
  reference_table : String
  reference_columns : List String
  on_delete : String := "NO ACTION"
deriving DecidableEq

/-- One partition definition: `value_less_than` is read for RANGE partitions,
`values` for LIST partitions. -/
structure PartDef where
  name : String
  value_less_than : String := ""
  values : List String := []
deriving DecidableEq

/-- Desired partitioning (`type` is one of RANGE, LIST, HASH). -/
structure Partitioning where
  type : String
  columns : List String
  partitions : List PartDef := []
deriving DecidableEq

/-- The desired table spec, i.e. the relevant slice of `module.params` (the
connection parameters play no role in DDL synthesis).  List options left
unset and option-typed scalars left unset are `none`. -/
structure TableInfo where
  columns : List Col := []
  indexes : List Idx := []
  foreign_keys : List FK := []
  partitioning : Option Partitioning := none
  tablespace : Option String := none
  temporary : Bool := false
  parallel : Option Int := none
  compress : Option Bool := none
  row_movement : Option Bool := none
  gather_stats : Bool := false
  comment : Option String := none
deriving DecidableEq

/-- A live column as `get_existing_columns` shapes it (type string rebuilt
from catalog metadata, nullable flag, default expression, comment). -/
structure ExCol where
  type : String
  nullable : Bool
  default : Option String := none
  comment : Option String := none
deriving DecidableEq

/-- A live constraint as `get_existing_constraints` shapes it: the value dict
holds type, column, condition and reference - and no name key. -/
structure ExCons where
  type : String
  column : String
  condition : Option String := none
deriving DecidableEq

/-- A live index as `get_existing_indexes` shapes it. -/
structure ExIdx where
  type : String
  unique : Bool
  columns : List String
deriving DecidableEq

/-- The live schema: the three dictionaries returned by the catalog readers,
as association lists keyed by object name. -/
structure LiveSchema where
  columns : List (String × ExCol) := []
  constraints : List (String × ExCons) := []
  indexes : List (String × ExIdx) := []
deriving DecidableEq

/-- Python `d[k]` / `d.get(k)` on a dictionary modelled as an association
list: first binding of the key wins. -/
def pyGet {β : Type} (k : String) : List (String × β) → Option β
  | [] => none
  | (k2, v) :: rest => if k2 = k then some v else pyGet k rest

/-- Python `x in l` for a list of strings. -/
def memS (x : String) : List String → Bool
  | [] => false
  | y :: rest => if y = x then true else memS x rest

/-- Python truthiness of an optional string: `None` and `""` are falsy. -/
def truthyS : Option String → Bool
  | none => false
  | some s => s ≠ ""

/-- Python truthiness of an optional int: `None` and `0` are falsy. -/
def truthyI : Option Int → Bool
  | none => false
  | some n => n ≠ 0

/-- Python truthiness of an optional bool: only `True` is truthy. -/
def truthyB : Option Bool → Bool
  | none => false
  | some b => b

/-- How an f-string renders an optional value (`None` prints as `"None"`). -/
def pyStr : Option String → String
  | none => "None"
  | some s => s

/-- Python `", ".join(l)`. -/
def joinComma (l : List String) : String := String.intercalate ", " l

/-- The column-definition fragment `create_table` builds for one column. -/
def createColDef (c : Col) : String :=
  c.name ++ " " ++ c.type
    ++ (if c.nullable then "" else " NOT NULL")
    ++ (if truthyS c.default then " DEFAULT " ++ pyStr c.default else "")
    ++ (if truthyS c.check then " CHECK (" ++ pyStr c.check ++ ")" else "")

/-- `next((col['name'] for col in columns if col.get('primary_key')), None)`. -/
def firstPk (cols : List Col) : Option String :=
  (cols.find? (fun c => c.primary_key)).map (fun c => c.name)

/-- The per-partition fragments of the CREATE statement, by partition kind
(a kind outside RANGE/LIST/HASH appends nothing, as the if/elif chain does). -/
def partitionDef (ptype : String) (p : PartDef) : List String :=
  if ptype = "RANGE" then
    ["PARTITION " ++ p.name ++ " VALUES LESS THAN (" ++ p.value_less_than ++ ")"]
  else if ptype = "LIST" then
    ["PARTITION " ++ p.name ++ " VALUES (" ++ joinComma p.values ++ ")"]
  else if ptype = "HASH" then
    ["PARTITION " ++ p.name]
  else []

/-- The CREATE TABLE statement `create_table` builds, given the value the
function reads from `table_info['name']`.  NOTE: at its only call site the
function receives `module.params`, which carries `table_name` but no `name`
key, so this value never exists at runtime - `runModule` models that read as
a `KeyError` (see `runModule`). -/
def createQuery (nameVal : String) (info : TableInfo) : String :=
  "CREATE " ++ (if info.temporary then "TEMPORARY " else "") ++ "TABLE " ++ nameVal
    ++ " (" ++ joinComma (info.columns.map createColDef
        ++ (match firstPk info.columns with
            | some p => ["CONSTRAINT pk_" ++ nameVal ++ " PRIMARY KEY (" ++ p ++ ")"]
            | none => [])) ++ ")"
    ++ (if truthyS info.tablespace then " TABLESPACE " ++ pyStr info.tablespace else "")
    ++ (match info.partitioning with
        | some part =>
          " PARTITION BY " ++ part.type ++ "(" ++ joinComma part.columns ++ ") ("
            ++ joinComma (part.partitions.flatMap (partitionDef part.type)) ++ ")"
        | none => "")
    ++ (if truthyB info.compress then " COMPRESS" else "")
    ++ (if truthyI info.parallel then " PARALLEL " ++ toString ((info.parallel).getD 0) else "")
    ++ (if truthyB info.row_movement then " ENABLE ROW MOVEMENT" else "")

/-- All statements `create_table` would execute (CREATE, then per-column
COMMENTs, then the table COMMENT), again given the `name` value the function
body assumes it can read. -/
def create_table (nameVal : String) (info : TableInfo) : List Stmt :=
  [⟨.createOp, createQuery nameVal info⟩]
    ++ info.columns.filterMap (fun c =>
        if truthyS c.comment then
          some ⟨.createOp,
            "COMMENT ON COLUMN " ++ nameVal ++ "." ++ c.name ++ " IS '" ++ pyStr c.comment ++ "'"⟩
        else none)
    ++ (if truthyS info.comment then
          [⟨.createOp, "COMMENT ON TABLE " ++ nameVal ++ " IS '" ++ pyStr info.comment ++ "'"⟩]
        else [])

/-- The single statement of `drop_table`. -/
def drop_table (tbl : String) : Stmt := ⟨.dropTableOp, "DROP TABLE " ++ tbl ++ " PURGE"⟩

/-- The ALTER TABLE ... ADD statement for a column absent from the live table. -/
def addColumnSql (tbl : String) (c : Col) : String :=
  "ALTER TABLE " ++ tbl ++ " ADD " ++ c.name ++ " " ++ c.type
    ++ (if c.nullable then "" else " NOT NULL")
    ++ (if truthyS c.default then " DEFAULT " ++ pyStr c.default else "")

/-- Statements of the add/modify column phase for one desired column
(`modify_table`, first loop): add when absent from live, otherwise a MODIFY
for type/nullability change, a MODIFY for default change, and a COMMENT for
comment change (the COMMENT interpolating `col.get('comment', '')`, which is
the stored value - `None` when unset). -/
def colStmtsFor (tbl : String) (live : LiveSchema) (c : Col) : List Stmt :=
  match pyGet c.name live.columns with
  | none => [⟨.colAddModify, addColumnSql tbl c⟩]
  | some ec =>
    (if ec.type ≠ c.type ∨ ec.nullable ≠ c.nullable then
      [⟨.colAddModify,
        "ALTER TABLE " ++ tbl ++ " MODIFY " ++ c.name ++ " " ++ c.type ++ " "
          ++ (if c.nullable then "NULL" else "NOT NULL")⟩]
     else [])
    ++ (if ec.default ≠ c.default then
          (if truthyS c.default then
            [⟨.colAddModify,
              "ALTER TABLE " ++ tbl ++ " MODIFY " ++ c.name ++ " DEFAULT " ++ pyStr c.default⟩]
           else
            [⟨.colAddModify, "ALTER TABLE " ++ tbl ++ " MODIFY " ++ c.name ++ " DEFAULT NULL"⟩])
        else [])
    ++ (if ec.comment ≠ c.comment then
          [⟨.colAddModify,
            "COMMENT ON COLUMN " ++ tbl ++ "." ++ c.name ++ " IS '" ++ pyStr c.comment ++ "'"⟩]
        else [])

/-- Drop-column phase: every live column whose name is not among the desired
column names is dropped, unconditionally. -/
def dropColStmts (tbl : String) (d : TableInfo) (live : LiveSchema) : List Stmt :=
  live.columns.filterMap (fun p =>
    if memS p.1 (d.columns.map (fun c => c.name)) then none
    else some ⟨.colDrop, "ALTER TABLE " ++ tbl ++ " DROP COLUMN " ++ p.1⟩)

/-- A desired constraint as `modify_table` builds it (type, column, and for
CHECK constraints the condition). -/
structure DCons where
  type : String
  column : Option String
  condition : Option String := none
deriving DecidableEq

/-- The `desired_constraints` dictionary, in insertion order: the `pk_<table>`
entry first (its column is the first primary-key-flagged column, or `None`),
then per column a `uk_<table>_<column>` entry when `unique` and a
`ck_<table>_<column>` entry when `check` is truthy. -/
def desiredConsList (tbl : String) (cols : List Col) : List (String × DCons) :=
  ("pk_" ++ tbl, ⟨"PRIMARY KEY", firstPk cols, none⟩)
    :: cols.flatMap (fun c =>
      (if c.unique then
        [("uk_" ++ tbl ++ "_" ++ c.name, (⟨"UNIQUE", some c.name, none⟩ : DCons))]
       else [])
      ++ (if truthyS c.check then
        [("ck_" ++ tbl ++ "_" ++ c.name, (⟨"CHECK", some c.name, c.check⟩ : DCons))]
       else []))

/-- `next((c['condition'] for c in desired_constraints.values() if c['type'] ==
'CHECK' and c['column'] == column), None)`. -/
def firstCheckCond (dcons : List (String × DCons)) (colName : String) : Option String :=
  match dcons.find? (fun p => p.2.type == "CHECK" && p.2.column == some colName) with
  | some p => p.2.condition
  | none => none

/-- Whether a live constraint makes the constraint-drop branch fire. -/
def consDropPred (dcons : List (String × DCons)) (names : List String) (c : ExCons) : Bool :=
  (c.type == "PRIMARY KEY" || c.type == "UNIQUE" || c.type == "CHECK")
    && (!(memS c.column names)
        || !(memS c.type (dcons.map (fun p => p.2.type)))
        || (c.type == "CHECK" && !(c.condition == firstCheckCond dcons c.column)))

/-- The constraint-drop loop.  Its body executes
`f"ALTER TABLE {table_name} DROP CONSTRAINT {constraint['name']}"`, but the
loop iterates `existing_constraints.values()` and those value dicts carry no
`'name'` key, so the first constraint that needs dropping raises `KeyError`
before any DROP CONSTRAINT is executed; no statement is ever emitted here. -/
def consDropScan (dcons : List (String × DCons)) (names : List String) :
    List (String × ExCons) → Option PyErr
  | [] => none
  | (_, c) :: rest =>
    if consDropPred dcons names c then some (.keyError "name")
    else consDropScan dcons names rest

def consDropTrace (tbl : String) (d : TableInfo) (live : LiveSchema) : Trace :=
  ⟨[], consDropScan (desiredConsList tbl d.columns) (d.columns.map (fun c => c.name))
        live.constraints⟩

/-- Constraint-add phase: a desired constraint with a truthy column whose name
is not a key of `existing_constraints` is added, with the statement picked by
its type. -/
def consAddStmts (tbl : String) (d : TableInfo) (live : LiveSchema) : List Stmt :=
  (desiredConsList tbl d.columns).filterMap (fun p =>
    if truthyS p.2.column && (pyGet p.1 live.constraints).isNone then
      if p.2.type == "PRIMARY KEY" then
        some ⟨.constraintOp,
          "ALTER TABLE " ++ tbl ++ " ADD CONSTRAINT " ++ p.1
            ++ " PRIMARY KEY (" ++ pyStr p.2.column ++ ")"⟩
      else if p.2.type == "UNIQUE" then
        some ⟨.constraintOp,
          "ALTER TABLE " ++ tbl ++ " ADD CONSTRAINT " ++ p.1
            ++ " UNIQUE (" ++ pyStr p.2.column ++ ")"⟩
      else if p.2.type == "CHECK" then
        some ⟨.constraintOp,
          "ALTER TABLE " ++ tbl ++ " ADD CONSTRAINT " ++ p.1
            ++ " CHECK (" ++ pyStr p.2.condition ++ ")"⟩
      else none
    else none)

/-- The CREATE INDEX statement (`UNIQUE` and `BITMAP` markers by truthiness
and type equality, exactly as the f-string builds it). -/
def createIndexSql (tbl : String) (i : Idx) : String :=
  "CREATE " ++ (if i.unique then "UNIQUE " else "")
    ++ (if i.type == "BITMAP" then "BITMAP " else "")
    ++ "INDEX " ++ i.name ++ " ON " ++ tbl ++ " (" ++ joinComma i.columns ++ ")"

/-- Index phase, per desired index: create when the name is absent from live;
when present but differing in uniqueness, type or (order-sensitive) column
list, DROP INDEX then CREATE; when identical, nothing. -/
def indexStmtsFor (tbl : String) (existing : List (String × ExIdx)) (i : Idx) : List Stmt :=
  match pyGet i.name existing with
  | none => [⟨.indexOp, createIndexSql tbl i⟩]
  | some e =>
    if e.unique ≠ i.unique ∨ e.type ≠ i.type ∨ e.columns ≠ i.columns then
      [⟨.indexOp, "DROP INDEX " ++ i.name⟩, ⟨.indexOp, createIndexSql tbl i⟩]
    else []

/-- Index-drop loop: every live index whose name is not among the desired
index names is dropped. -/
def dropIdxStmts (d : TableInfo) (live : LiveSchema) : List Stmt :=
  live.indexes.filterMap (fun p =>
    if memS p.1 (d.indexes.map (fun i => i.name)) then none
    else some ⟨.indexOp, "DROP INDEX " ++ p.1⟩)

/-- The ADD CONSTRAINT ... FOREIGN KEY statement. -/
def addFkSql (tbl : String) (fk : FK) : String :=
  "ALTER TABLE " ++ tbl ++ " ADD CONSTRAINT " ++ fk.name ++ " FOREIGN KEY ("
    ++ joinComma fk.columns ++ ") REFERENCES " ++ fk.reference_table ++ " ("
    ++ joinComma fk.reference_columns ++ ")"
    ++ (if fk.on_delete ≠ "" then " ON DELETE " ++ fk.on_delete else "")

/-- Foreign-key phase, per desired key: add when its name is not a key of
`existing_constraints`; otherwise drop it and re-add it without comparing
definitions (the source comments this simplification). -/
def fkStmtsFor (tbl : String) (existingCons : List (String × ExCons)) (fk : FK) : List Stmt :=
  if (pyGet fk.name existingCons).isNone then
    [⟨.foreignKeyOp, addFkSql tbl fk⟩]
  else
    [⟨.foreignKeyOp, "ALTER TABLE " ++ tbl ++ " DROP CONSTRAINT " ++ fk.name⟩,
     ⟨.foreignKeyOp, addFkSql tbl fk⟩]

/-- `if desired_state.get('tablespace'):` - live table properties are never
introspected, so the statement depends on the desired value alone. -/
def tablespaceStmts (tbl : String) (d : TableInfo) : List Stmt :=
  if truthyS d.tablespace then
    [⟨.propertyOp, "ALTER TABLE " ++ tbl ++ " MOVE TABLESPACE " ++ pyStr d.tablespace⟩]
  else []

def parallelStmts (tbl : String) (d : TableInfo) : List Stmt :=
  if truthyI d.parallel then
    [⟨.propertyOp, "ALTER TABLE " ++ tbl ++ " PARALLEL " ++ toString ((d.parallel).getD 0)⟩]
  else []

/-- `if desired_state.get('compress') is not None:` - fires for `some false`
too (NOCOMPRESS). -/
def compressStmts (tbl : String) (d : TableInfo) : List Stmt :=
  match d.compress with
  | some b =>
    [⟨.propertyOp, "ALTER TABLE " ++ tbl ++ " " ++ (if b then "COMPRESS" else "NOCOMPRESS")⟩]
  | none => []

def rowMovementStmts (tbl : String) (d : TableInfo) : List Stmt :=
  match d.row_movement with
  | some b =>
    [⟨.propertyOp,
      "ALTER TABLE " ++ tbl ++ " " ++ (if b then "ENABLE" else "DISABLE") ++ " ROW MOVEMENT"⟩]
  | none => []

def tableCommentStmts (tbl : String) (d : TableInfo) : List Stmt :=
  if truthyS d.comment then
    [⟨.propertyOp, "COMMENT ON TABLE " ++ tbl ++ " IS '" ++ pyStr d.comment ++ "'"⟩]
  else []

/-- Table-property phase of `modify_table`, in source order: tablespace,
parallel, compress, row movement, then the table comment. -/
def propStmts (tbl : String) (d : TableInfo) : List Stmt :=
  tablespaceStmts tbl d ++ parallelStmts tbl d ++ compressStmts tbl d
    ++ rowMovementStmts tbl d ++ tableCommentStmts tbl d

/-- All of `modify_table`: column adds/modifies, column drops, constraint
drops (which never get past synthesis, see `consDropScan`), constraint adds,
per-desired-index operations, index drops, foreign-key operations, table
properties.  Partitioning in the desired spec is never read (the source ends
with a comment saying partition modification is not handled). -/
def modifyTrace (tbl : String) (d : TableInfo) (live : LiveSchema) : Trace :=
  (Trace.ofStmts (d.columns.flatMap (colStmtsFor tbl live))).seq
    ((Trace.ofStmts (dropColStmts tbl d live)).seq
      ((consDropTrace tbl d live).seq
        ((Trace.ofStmts (consAddStmts tbl d live)).seq
          ((Trace.ofStmts (d.indexes.flatMap (indexStmtsFor tbl live.indexes))).seq
            ((Trace.ofStmts (dropIdxStmts d live)).seq
              ((Trace.ofStmts (d.foreign_keys.flatMap (fkStmtsFor tbl live.constraints))).seq
                (Trace.ofStmts (propStmts tbl d))))))))

/-- The requested lifecycle state. -/
inductive TState
  | present
  | absent
  | modified
deriving DecidableEq

/-- What a run of the module produces: the statements that were successfully
executed, the reported `changed` flag, the `fail_json` message if the module
failed, an uncaught Python exception if one escaped, and whether the
post-run `gather_table_stats` maintenance hook was invoked. -/
structure Outcome where
  applied : List Stmt := []
  changed : Bool := false
  failJson : Option String := none
  pyError : Option PyErr := none
  statsCalled : Bool := false
deriving DecidableEq

/-- Execute statements in order against a fallible executor: stop at the first
failure, returning the statements that succeeded and the error text. -/
def runStmts (exec : String → Except String Unit) : List Stmt → List Stmt × Option String
  | [] => ([], none)
  | s :: rest =>
    match exec s.sql with
    | .ok _ =>
      let r := runStmts exec rest
      (s :: r.1, r.2)
    | .error e => ([], some e)

/-- Execute a synthesized trace; a database error becomes `fail_json` with the
error text (`changed` still false, as `result['changed'] = True` runs only
after the call returns), an uninterrupted run sets `changed = True` and then
runs commit and the optional stats hook, and a Python exception escapes. -/
def applyTrace (exec : String → Except String Unit) (t : Trace) (gatherStats : Bool) : Outcome :=
  match runStmts exec t.stmts with
  | (app, some e) => { applied := app, changed := false, failJson := some e }
  | (app, none) =>
    match t.err with
    | some pe => { applied := app, changed := false, pyError := some pe }
    | none => { applied := app, changed := true, statsCalled := gatherStats }

/-- The statement text of `gather_table_stats` (modelled as the
`statsCalled` flag in `Outcome`; the spec treats it as an external
maintenance hook outside the reconciliation core). -/
def gatherStatsSql (tbl : String) : String :=
  "BEGIN DBMS_STATS.GATHER_TABLE_STATS(ownname => USER, tabname => '" ++ tbl ++ "'); END;"

/-- `run_module` after the connection is made: branch on state and existence.
`state=present` on a missing table calls `create_table(cursor, module.params)`
whose body reads `table_info['name']` - a key `module.params` does not carry
(the parameter is `table_name`) - so outside check mode that branch raises
`KeyError('name')` while building the CREATE statement, before any DDL is
issued.  `state=absent` drops when the table exists.  `state=modified` on a
missing table calls `fail_json` with `"Table <name> does not exist"`.  On the
modify paths `result['changed']` is set to `True` unconditionally once
`modify_table` returns. -/
def runModule (tbl : String) (st : TState) (checkMode : Bool) (tableExists : Bool)
    (d : TableInfo) (live : LiveSchema) (exec : String → Except String Unit) : Outcome :=
  match st with
  | .present =>
    if tableExists then
      if checkMode then { changed := true }
      else applyTrace exec (modifyTrace tbl d live) d.gather_stats
    else
      if checkMode then { changed := true }
      else { changed := false, pyError := some (.keyError "name") }
  | .absent =>
    if tableExists then
      if checkMode then { changed := true }
      else
        match exec (drop_table tbl).sql with
        | .ok _ => { applied := [drop_table tbl], changed := true, statsCalled := d.gather_stats }
        | .error e => { changed := false, failJson := some e }
    else
      { changed := false, statsCalled := !checkMode && d.gather_stats }
  | .modified =>
    if tableExists then
      if checkMode then { changed := true }
      else applyTrace exec (modifyTrace tbl d live) d.gather_stats
    else
      { changed := false, failJson := some ("Table " ++ tbl ++ " does not exist") }

/-- An executor on which every statement succeeds. -/
def okExec : String → Except String Unit := fun _ => .ok ()

/-- The live schema that matches a desired spec `d`, in the shape the three
catalog readers return it for a table whose state agrees with `d`: same
columns (type text, nullability, default, comment), the constraints of the
module's own pk_/uk_/ck_ naming scheme plus the foreign keys by name, and
the same indexes. -/
def liveFromSpec (tbl : String) (d : TableInfo) : LiveSchema :=
  { columns := d.columns.map (fun c =>
      (c.name, { type := c.type, nullable := c.nullable, default := c.default,
                 comment := c.comment })),
    constraints :=
      (match firstPk d.columns with
       | some p => [("pk_" ++ tbl, ({ type := "PRIMARY KEY", column := p } : ExCons))]
       | none => [])
      ++ d.columns.flatMap (fun c =>
          (if c.unique then
            [("uk_" ++ tbl ++ "_" ++ c.name, ({ type := "UNIQUE", column := c.name } : ExCons))]
           else [])
          ++ (if truthyS c.check then
            [("ck_" ++ tbl ++ "_" ++ c.name,
              ({ type := "CHECK", column := c.name, condition := c.check } : ExCons))]
           else []))
      ++ d.foreign_keys.map (fun fk =>
          (fk.name, ({ type := "FOREIGN KEY", column := (fk.columns).headD "" } : ExCons))),
    indexes := d.indexes.map (fun i =>
      (i.name, { type := i.type, unique := i.unique, columns := i.columns })) }

/-- The single-quote character. -/
def quoteChar : Char := '\''

/-- Doubling of embedded single quotes, the SQL escaping rule. -/
def escChars : List Char → List Char
  | [] => []
  | c :: cs =>
    if c = quoteChar then quoteChar :: quoteChar :: escChars cs else c :: escChars cs

/-- What the specification requires of an embedded string literal ("correctly
quote/escape string literals embedded in DEFAULT/CHECK/COMMENT clauses"): the
text wrapped in single quotes with every interior single quote doubled, so the
statement carries exactly the given text as a well-formed literal.  This
definition follows the spec's words; the source is compared against it. -/
def specQuotedLiteral (s : String) : String :=
  String.mk (quoteChar :: (escChars s.data ++ [quoteChar]))

/-- Concrete fixtures used by the per-claim counterexamples and witnesses. -/
def specC1 : TableInfo := { columns := [{ name := "ID", type := "NUMBER" }] }

def specC2base : TableInfo := { columns := [{ name := "ID", type := "NUMBER" }] }

def specC2 : TableInfo :=
  { specC2base with
    partitioning := some { type := "RANGE", columns := ["ID"],
                           partitions := [{ name := "P1", value_less_than := "10" }] } }

def fkC3 : FK :=
  { name := "FK1", columns := ["A", "B"], reference_table := "R", reference_columns := ["C"] }

def specC3 : TableInfo :=
  { columns := [{ name := "ID", type := "NUMBER" }], foreign_keys := [fkC3] }

def specC5 : TableInfo :=
  { columns := [{ name := "A", type := "NUMBER" }, { name := "B", type := "NUMBER" }] }

/-- Executor failing on the first ADD of `specC5`. -/
def execFailA : String → Except String Unit :=
  fun s => if s = "ALTER TABLE T5 ADD A NUMBER" then .error "ORA-00942" else .ok ()

/-- Executor failing on the second ADD of `specC5`. -/
def execFailB : String → Except String Unit :=
  fun s => if s = "ALTER TABLE T5 ADD B NUMBER" then .error "ORA-00942" else .ok ()

def specC9base : TableInfo := { columns := [{ name := "ID", type := "NUMBER" }] }

def specC9 : TableInfo := { specC9base with comment := some "it's a table" }

def idxC3 : Idx := { name := "IX1", columns := ["NO_SUCH_COLUMN"] }

def idxC7 : Idx := { name := "IDX_E", columns := ["EMAIL"], unique := true }

def exIdxC7 : ExIdx := { type := "BTREE", unique := false, columns := ["EMAIL"] }

def specW1 : TableInfo :=
  { columns :=
      [{ name := "ID", type := "NUMBER", primary_key := true, nullable := false },
       { name := "EMAIL", type := "VARCHAR2(100)", unique := true,
         check := some "EMAIL IS NOT NULL", comment := some "mail" }],
    indexes := [{ name := "IDX_W", columns := ["EMAIL"] }] }

theorem runStmts_ok (l : List Stmt) : runStmts okExec l = (l, none) := by
  induction l with
  | nil => rfl
  | cons s rest ih => simp [runStmts, okExec, ih]

theorem memS_of_mem {x : String} {l : List String} (h : x ∈ l) : memS x l = true := by
  induction l with
  | nil => cases h
  | cons y ys ih =>
    simp only [memS]
    rcases List.mem_cons.mp h with rfl | hm
    · rw [if_pos rfl]
    · split
      · rfl
      · exact ih hm

theorem pyGet_map {α β : Type} (key : α → String) (f : α → β) (l : List α) (a : α)
    (ha : a ∈ l) (hn : (l.map key).Nodup) :
    pyGet (key a) (l.map (fun x => (key x, f x))) = some (f a) := by
  induction l with
  | nil => cases ha
  | cons x xs ih =>
    simp only [List.map_cons, pyGet]
    rw [List.map_cons, List.nodup_cons] at hn
    rcases List.mem_cons.mp ha with rfl | hmem
    · rw [if_pos rfl]
    · rw [if_neg, ih hmem hn.2]
      intro he
      exact hn.1 (he ▸ List.mem_map_of_mem key hmem)

theorem pyGet_isSome_of_mem {β : Type} {k : String} {l : List (String × β)}
    (h : k ∈ l.map Prod.fst) : (pyGet k l).isSome = true := by
  induction l with
  | nil => simp at h
  | cons p ps ih =>
    by_cases hpk : p.1 = k
    · simp [pyGet, hpk]
    · simp only [pyGet, if_neg hpk]
      apply ih
      simp only [List.map_cons, List.mem_cons] at h
      rcases h with h | h
      · exact absurd h.symm hpk
      · exact h

theorem consDropScan_none {dcons : List (String × DCons)} {names : List String}
    {l : List (String × ExCons)} (h : ∀ p ∈ l, consDropPred dcons names p.2 = false) :
    consDropScan dcons names l = none := by
  induction l with
  | nil => rfl
  | cons p ps ih =>
    obtain ⟨k, c⟩ := p
    simp only [consDropScan]
    rw [h ⟨k, c⟩ (List.mem_cons_self _ _)]
    exact ih (fun q hq => h q (List.mem_cons_of_mem _ hq))

/-- C2: partitioning supplied against an already-existing table is silently
ignored, not reported: this concrete run has partitioning in the desired spec,
the table exists, and the result carries no failure of any kind (no
`UnsupportedOperation`, no error report) - refuting the claim that the engine
reports UnsupportedOperation in that situation. -/
theorem c2_counterexample :
    specC2.partitioning ≠ none
    ∧ (runModule "T2" .present false true specC2 (liveFromSpec "T2" specC2base) okExec).failJson
        = none
    ∧ (runModule "T2" .present false true specC2 (liveFromSpec "T2" specC2base) okExec).pyError
        = none
    ∧ (runModule "T2" .present false true specC2 (liveFromSpec "T2" specC2base) okExec).applied
        = [] := by
  decide

/-- C2 (amended): `modify_table` never reads the partitioning of the desired
spec - the whole outcome of a `state=present` or `state=modified` run against
an existing table is unchanged under any replacement of the partitioning
field, so a partition-layout change is silently dropped (and no
partition-related statement can be emitted), rather than reported. -/
theorem c2_amended (tbl : String) (cm : Bool) (d : TableInfo) (p : Option Partitioning)
    (live : LiveSchema) (exec : String → Except String Unit) :
    runModule tbl .present cm true { d with partitioning := p } live exec
      = runModule tbl .present cm true d live exec
    ∧ runModule tbl .modified cm true { d with partitioning := p } live exec
      = runModule tbl .modified cm true d live exec :=
  ⟨rfl, rfl⟩

/-- C3: a malformed desired spec - here a foreign key whose local column list
(A, B) and referenced column list (C) have different lengths - does not fail
with a ValidationError before database access: the module synthesizes the
ADD CONSTRAINT statement and executes it (a mutation attempt), reporting no
validation failure at all. -/
theorem c3_counterexample :
    (fkC3.columns).length ≠ (fkC3.reference_columns).length
    ∧ (runModule "T3" .present false true specC3
        (liveFromSpec "T3" { columns := specC3.columns }) okExec).applied
      = [⟨.foreignKeyOp,
          "ALTER TABLE T3 ADD CONSTRAINT FK1 FOREIGN KEY (A, B) REFERENCES R (C) ON DELETE NO ACTION"⟩]
    ∧ (runModule "T3" .present false true specC3
        (liveFromSpec "T3" { columns := specC3.columns }) okExec).failJson = none := by
  decide

/-- C3 (amended): the module performs no cross-field validation of the desired
spec.  Any foreign key absent from the live constraints - whatever the lengths
of its column lists - and any index absent from the live indexes - whatever
columns it names - is synthesized into DDL and handed to the executor
unchanged; nothing is rejected before database access. -/
theorem c3_amended (tbl : String) (ecs : List (String × ExCons)) (eidxs : List (String × ExIdx))
    (fk : FK) (i : Idx) (hfk : pyGet fk.name ecs = none) (hidx : pyGet i.name eidxs = none) :
    fkStmtsFor tbl ecs fk = [⟨.foreignKeyOp, addFkSql tbl fk⟩]
    ∧ indexStmtsFor tbl eidxs i = [⟨.indexOp, createIndexSql tbl i⟩] := by
  constructor
  · simp [fkStmtsFor, hfk]
  · simp [indexStmtsFor, hidx]

/-- C3 witness: the amended theorem applied at the mismatched foreign key
(2 local columns, 1 referenced column) and an index naming a column absent
from the column list, both against an empty live schema. -/
theorem c3_amended_witness :
    fkStmtsFor "T3" [] fkC3 = [⟨.foreignKeyOp, addFkSql "T3" fkC3⟩]
    ∧ indexStmtsFor "T3" [] idxC3 = [⟨.indexOp, createIndexSql "T3" idxC3⟩] :=
  c3_amended "T3" [] [] fkC3 idxC3 rfl rfl

/-- C5: the module's failure report is `fail_json(msg=str(error), changed,
table)` - it does not name the statements that succeeded.  These two runs
fail with the same database error but with different sets of already-applied
statements (none vs. the first ADD), yet every caller-visible field of the
report is identical, so the report cannot tell the caller which statements
had succeeded. -/
theorem c5_counterexample :
    (runModule "T5" .present false true specC5 {} execFailA).failJson
      = (runModule "T5" .present false true specC5 {} execFailB).failJson
    ∧ (runModule "T5" .present false true specC5 {} execFailA).changed
      = (runModule "T5" .present false true specC5 {} execFailB).changed
    ∧ (runModule "T5" .present false true specC5 {} execFailA).applied
      ≠ (runModule "T5" .present false true specC5 {} execFailB).applied := by
  decide

/-- C5 (amended): when a statement fails during Applying, execution stops at
the failing statement - the applied statements are exactly the prefix before
it, each was executed once and successfully (no retry, no undo), and nothing
after the failing statement runs; but the error report carries only the
error text and the changed flag, not which statements succeeded (see the
counterexample). -/
theorem c5_amended (exec : String → Except String Unit) (stmts applied : List Stmt) (e : String)
    (h : runStmts exec stmts = (applied, some e)) :
    ∃ s rest, stmts = applied ++ s :: rest ∧ exec s.sql = .error e
      ∧ ∀ a ∈ applied, exec a.sql = .ok () := by
  induction stmts generalizing applied with
  | nil => simp [runStmts] at h
  | cons s rest ih =>
    rw [runStmts] at h
    cases hx : exec s.sql with
    | ok u =>
      rw [hx] at h
      rw [Prod.mk.injEq] at h
      obtain ⟨happ, herr⟩ := h
      obtain ⟨s2, rest2, heq, hfail, hall⟩ :=
        ih (runStmts exec rest).1 (by rw [← herr])
      refine ⟨s2, rest2, ?_, hfail, ?_⟩
      · rw [← happ, List.cons_append]
        exact congrArg (List.cons s) heq
      · intro a ha
        rw [← happ] at ha
        rcases List.mem_cons.mp ha with rfl | hm
        · cases u; exact hx
        · exact hall a hm
    | error e2 =>
      rw [hx] at h
      rw [Prod.mk.injEq] at h
      obtain ⟨happ, herr⟩ := h
      injection herr with he
      refine ⟨s, rest, by rw [← happ]; rfl, by rw [hx, he], ?_⟩
      rw [← happ]
      intro a ha
      cases ha

/-- C5 witness: the amended theorem at the concrete failing run of
`execFailB` against the planned statements of `specC5` (the first ADD
succeeded, the second failed). -/
theorem c5_amended_witness :
    ∃ s rest,
      (modifyTrace "T5" specC5 ({} : LiveSchema)).stmts
        = [⟨.colAddModify, "ALTER TABLE T5 ADD A NUMBER"⟩] ++ s :: rest
      ∧ execFailB s.sql = .error "ORA-00942"
      ∧ ∀ a ∈ [(⟨.colAddModify, "ALTER TABLE T5 ADD A NUMBER"⟩ : Stmt)],
          execFailB a.sql = .ok () :=
  c5_amended execFailB (modifyTrace "T5" specC5 ({} : LiveSchema)).stmts
    [⟨.colAddModify, "ALTER TABLE T5 ADD A NUMBER"⟩] "ORA-00942" (by decide)

/-- C6: `state=absent` against a nonexistent table issues no statement and
reports `changed=false` (in and out of check mode); against an existing table
(outside check mode, executor succeeding on the DROP) it applies exactly the
single `DROP TABLE <name> PURGE` statement and reports `changed=true`. -/
theorem c6_absent (tbl : String) (cm : Bool) (d : TableInfo) (live : LiveSchema)
    (exec : String → Except String Unit)
    (hok : exec ("DROP TABLE " ++ tbl ++ " PURGE") = .ok ()) :
    (runModule tbl .absent cm false d live exec).applied = []
    ∧ (runModule tbl .absent cm false d live exec).changed = false
    ∧ (runModule tbl .absent false true d live exec).applied = [drop_table tbl]
    ∧ (runModule tbl .absent false true d live exec).changed = true := by
  refine ⟨rfl, rfl, ?_, ?_⟩ <;> simp [runModule, drop_table, hok]

/-- C6 witness: the theorem at a concrete table name, empty desired spec and
the always-succeeding executor. -/
theorem c6_absent_witness :
    (runModule "T6" .absent false false {} {} okExec).applied = []
    ∧ (runModule "T6" .absent false false {} {} okExec).changed = false
    ∧ (runModule "T6" .absent false true {} {} okExec).applied = [drop_table "T6"]
    ∧ (runModule "T6" .absent false true {} {} okExec).changed = true :=
  c6_absent "T6" false {} {} okExec rfl

/-- C7: a desired index whose name matches a live index but whose uniqueness,
type or order-sensitive column list differs is replaced by exactly DROP INDEX
followed by CREATE (UNIQUE/BITMAP) INDEX - never an in-place ALTER - and a
name-matched index identical in all three respects produces no statement. -/
theorem c7_index_replace (tbl : String) (existing : List (String × ExIdx)) (i : Idx)
    (e : ExIdx) (hfound : pyGet i.name existing = some e) :
    (¬(e.unique = i.unique ∧ e.type = i.type ∧ e.columns = i.columns) →
      indexStmtsFor tbl existing i
        = [⟨.indexOp, "DROP INDEX " ++ i.name⟩, ⟨.indexOp, createIndexSql tbl i⟩])
    ∧ (e.unique = i.unique ∧ e.type = i.type ∧ e.columns = i.columns →
      indexStmtsFor tbl existing i = []) := by
  constructor
  · intro hne
    simp only [indexStmtsFor, hfound]
    rw [if_pos (by tauto)]
  · rintro ⟨h1, h2, h3⟩
    simp [indexStmtsFor, hfound, h1, h2, h3]

/-- C7 witness: the spec's scenario - desired `idx_e(email, unique=true)`
matching live `idx_e(email, unique=false)` by name - yields exactly the DROP
INDEX / CREATE UNIQUE INDEX pair. -/
theorem c7_index_witness :
    indexStmtsFor "USERS" [("IDX_E", exIdxC7)] idxC7
      = [⟨.indexOp, "DROP INDEX " ++ idxC7.name⟩, ⟨.indexOp, createIndexSql "USERS" idxC7⟩] :=
  (c7_index_replace "USERS" [("IDX_E", exIdxC7)] idxC7 exIdxC7 rfl).1 (by decide)

/-- C8: the table-property phase of `modify_table` is exactly the five
per-property fragments in source order, and each fragment emits its one
statement precisely when the desired value is specified (truthy for
tablespace/parallel/comment, not-None for compress/row movement); an
unspecified desired value emits nothing, leaving the live value as is.  The
live table's properties are never introspected (none of these definitions
takes the live schema), so the live value is always unknown to the module,
which is the case the claim carves out. -/
theorem c8_properties (tbl : String) (d : TableInfo) :
    propStmts tbl d
      = tablespaceStmts tbl d ++ parallelStmts tbl d ++ compressStmts tbl d
        ++ rowMovementStmts tbl d ++ tableCommentStmts tbl d
    ∧ (tablespaceStmts tbl d).length = (if truthyS d.tablespace then 1 else 0)
    ∧ (parallelStmts tbl d).length = (if truthyI d.parallel then 1 else 0)
    ∧ (compressStmts tbl d).length = (if (d.compress).isSome then 1 else 0)
    ∧ (rowMovementStmts tbl d).length = (if (d.row_movement).isSome then 1 else 0)
    ∧ (tableCommentStmts tbl d).length = (if truthyS d.comment then 1 else 0) := by
  refine ⟨rfl, ?_, ?_, ?_, ?_, ?_⟩
  · by_cases h : truthyS d.tablespace <;> simp [tablespaceStmts, h]
  · by_cases h : truthyI d.parallel <;> simp [parallelStmts, h]
  · cases h : d.compress <;> simp [compressStmts, h]
  · cases h : d.row_movement <;> simp [rowMovementStmts, h]
  · by_cases h : truthyS d.comment <;> simp [tableCommentStmts, h]

/-- C9: the COMMENT statement the modify path emits for the table comment
`it's a table` interpolates the text verbatim between single quotes with no
escaping; the result differs from the statement carrying the text as a
correctly escaped SQL string literal (interior quote doubled), so the claim's
quoting requirement is violated by the code. -/
theorem c9_quoting :
    (runModule "USERS" .present false true specC9 (liveFromSpec "USERS" specC9base)
        okExec).applied
      = [⟨.propertyOp, "COMMENT ON TABLE USERS IS 'it's a table'"⟩]
    ∧ "COMMENT ON TABLE USERS IS 'it's a table'"
      ≠ "COMMENT ON TABLE USERS IS " ++ specQuotedLiteral "it's a table" := by
  decide

/-- C10: `state=modified` against a missing table fails with
`Table <name> does not exist` and issues no DDL; when the table exists,
`modified` and `present` coincide exactly (same outcome, in and out of check
mode); but `state=present` against a missing table does not create it -
outside check mode it raises `KeyError('name')` (create_table reads
`table_info['name']` from `module.params`, which only carries `table_name`)
before issuing any DDL. -/
theorem c10_lifecycle (tbl : String) (cm : Bool) (d : TableInfo) (live : LiveSchema)
    (exec : String → Except String Unit) :
    runModule tbl .modified cm false d live exec
      = { changed := false, failJson := some ("Table " ++ tbl ++ " does not exist") }
    ∧ runModule tbl .modified cm true d live exec = runModule tbl .present cm true d live exec
    ∧ runModule tbl .present false false d live exec
      = { changed := false, pyError := some (.keyError "name") } :=
  ⟨rfl, rfl, rfl⟩

theorem find?_check_flatMap (tbl : String) (c0 : Col) (cols : List Col)
    (hmem : c0 ∈ cols) (hchk : truthyS c0.check = true)
    (hnd : (cols.map (fun c => c.name)).Nodup) :
    (cols.flatMap (fun c =>
      (if c.unique then
        [("uk_" ++ tbl ++ "_" ++ c.name, (⟨"UNIQUE", some c.name, none⟩ : DCons))]
       else [])
      ++ (if truthyS c.check then
        [("ck_" ++ tbl ++ "_" ++ c.name, (⟨"CHECK", some c.name, c.check⟩ : DCons))]
       else []))).find?
        (fun p => p.2.type == "CHECK" && p.2.column == some c0.name)
      = some ("ck_" ++ tbl ++ "_" ++ c0.name, (⟨"CHECK", some c0.name, c0.check⟩ : DCons)) := by
  induction cols with
  | nil => cases hmem
  | cons x xs ih =>
    rw [List.map_cons, List.nodup_cons] at hnd
    rw [List.flatMap_cons, List.find?_append, List.find?_append]
    rcases List.mem_cons.mp hmem with rfl | hm
    · have huk : (if c0.unique then
          [("uk_" ++ tbl ++ "_" ++ c0.name, (⟨"UNIQUE", some c0.name, none⟩ : DCons))]
         else []).find? (fun p => p.2.type == "CHECK" && p.2.column == some c0.name) = none := by
        split <;> simp [List.find?]
      rw [huk, if_pos hchk]
      simp [List.find?]
    · have hne : x.name ≠ c0.name := fun he => hnd.1 (he ▸ List.mem_map_of_mem _ hm)
      have huk : (if x.unique then
          [("uk_" ++ tbl ++ "_" ++ x.name, (⟨"UNIQUE", some x.name, none⟩ : DCons))]
         else []).find? (fun p => p.2.type == "CHECK" && p.2.column == some c0.name) = none := by
        split <;> simp [List.find?]
      have hbe : (x.name == c0.name) = false := beq_eq_false_iff_ne.mpr hne
      have hck : (if truthyS x.check then
          [("ck_" ++ tbl ++ "_" ++ x.name, (⟨"CHECK", some x.name, x.check⟩ : DCons))]
         else []).find? (fun p => p.2.type == "CHECK" && p.2.column == some c0.name) = none := by
        split <;> simp [List.find?, hbe]
      rw [huk, hck]
      exact ih hm hnd.2

theorem firstCheckCond_self (tbl : String) (cols : List Col) (c0 : Col)
    (hc0 : c0 ∈ cols) (hchk : truthyS c0.check = true)
    (hnd : (cols.map (fun c => c.name)).Nodup) :
    firstCheckCond (desiredConsList tbl cols) c0.name = c0.check := by
  rw [firstCheckCond, desiredConsList]
  rw [List.find?_cons_of_neg _ (by simp)]
  rw [find?_check_flatMap tbl c0 cols hc0 hchk hnd]

theorem pkType_mem (tbl : String) (cols : List Col) :
    memS "PRIMARY KEY" ((desiredConsList tbl cols).map (fun p => p.2.type)) = true := by
  simp [desiredConsList, memS]

theorem ukType_mem (tbl : String) (cols : List Col) (c0 : Col)
    (hc0 : c0 ∈ cols) (hu : c0.unique = true) :
    memS "UNIQUE" ((desiredConsList tbl cols).map (fun p => p.2.type)) = true := by
  apply memS_of_mem
  refine List.mem_map.mpr
    ⟨("uk_" ++ tbl ++ "_" ++ c0.name, (⟨"UNIQUE", some c0.name, none⟩ : DCons)), ?_, rfl⟩
  refine List.mem_cons_of_mem _ (List.mem_flatMap.mpr ⟨c0, hc0, ?_⟩)
  rw [if_pos hu]
  exact List.mem_append.mpr (Or.inl (List.mem_singleton.mpr rfl))

theorem ckType_mem (tbl : String) (cols : List Col) (c0 : Col)
    (hc0 : c0 ∈ cols) (hchk : truthyS c0.check = true) :
    memS "CHECK" ((desiredConsList tbl cols).map (fun p => p.2.type)) = true := by
  apply memS_of_mem
  refine List.mem_map.mpr
    ⟨("ck_" ++ tbl ++ "_" ++ c0.name, (⟨"CHECK", some c0.name, c0.check⟩ : DCons)), ?_, rfl⟩
  refine List.mem_cons_of_mem _ (List.mem_flatMap.mpr ⟨c0, hc0, ?_⟩)
  rw [if_pos hchk]
  exact List.mem_append.mpr (Or.inr (List.mem_singleton.mpr rfl))

theorem consDrop_noop (tbl : String) (d : TableInfo)
    (hnd : (d.columns.map (fun c => c.name)).Nodup) (hfk : d.foreign_keys = []) :
    consDropScan (desiredConsList tbl d.columns) (d.columns.map (fun c => c.name))
      (liveFromSpec tbl d).constraints = none := by
  apply consDropScan_none
  intro p hp
  simp only [liveFromSpec, hfk, List.map_nil, List.append_nil] at hp
  rcases List.mem_append.mp hp with hp | hp
  · cases hfp : firstPk d.columns with
    | none => rw [hfp] at hp; cases hp
    | some pc =>
      rw [hfp] at hp
      rw [List.mem_singleton] at hp
      subst hp
      have h1 : memS pc (d.columns.map (fun c => c.name)) = true := by
        apply memS_of_mem
        rw [firstPk] at hfp
        obtain ⟨c1, hfind, hname⟩ := Option.map_eq_some'.mp hfp
        exact hname ▸ List.mem_map_of_mem _ (List.mem_of_find?_eq_some hfind)
      simp [consDropPred, h1, pkType_mem]
  · rw [List.mem_flatMap] at hp
    obtain ⟨c0, hc0, hp⟩ := hp
    have hcn : memS c0.name (d.columns.map (fun c => c.name)) = true :=
      memS_of_mem (List.mem_map_of_mem _ hc0)
    rcases List.mem_append.mp hp with hp | hp
    · by_cases hu : c0.unique = true
      · rw [if_pos hu, List.mem_singleton] at hp
        subst hp
        simp [consDropPred, hcn, ukType_mem tbl d.columns c0 hc0 hu]
      · rw [if_neg hu] at hp
        cases hp
    · by_cases hchk : truthyS c0.check = true
      · rw [if_pos hchk, List.mem_singleton] at hp
        subst hp
        simp [consDropPred, hcn, ckType_mem tbl d.columns c0 hc0 hchk,
          firstCheckCond_self tbl d.columns c0 hc0 hchk hnd]
      · rw [if_neg hchk] at hp
        cases hp

theorem colPhase_noop (tbl : String) (d : TableInfo)
    (hnd : (d.columns.map (fun c => c.name)).Nodup) :
    d.columns.flatMap (colStmtsFor tbl (liveFromSpec tbl d)) = [] := by
  rw [List.flatMap_eq_nil_iff]
  intro c hc
  have hlk : pyGet c.name (liveFromSpec tbl d).columns
      = some { type := c.type, nullable := c.nullable, default := c.default,
               comment := c.comment } := by
    simp only [liveFromSpec]
    exact pyGet_map (fun c => c.name)
      (fun c => ({ type := c.type, nullable := c.nullable, default := c.default,
                   comment := c.comment } : ExCol)) d.columns c hc hnd
  simp only [colStmtsFor]
  rw [hlk]
  simp

theorem dropCol_noop (tbl : String) (d : TableInfo) :
    dropColStmts tbl d (liveFromSpec tbl d) = [] := by
  rw [dropColStmts, List.filterMap_eq_nil_iff]
  intro p hp
  simp only [liveFromSpec] at hp
  obtain ⟨c, hcm, rfl⟩ := List.mem_map.mp hp
  have hm := memS_of_mem (List.mem_map_of_mem (fun c => c.name) hcm)
  simp [hm]

theorem consAdd_noop (tbl : String) (d : TableInfo) :
    consAddStmts tbl d (liveFromSpec tbl d) = [] := by
  rw [consAddStmts, List.filterMap_eq_nil_iff]
  intro p hp
  suffices hS : (truthyS p.2.column && (pyGet p.1 (liveFromSpec tbl d).constraints).isNone)
      = false by
    rw [hS]
    rfl
  rw [desiredConsList] at hp
  rcases List.mem_cons.mp hp with rfl | hmem
  · cases hfp : firstPk d.columns with
    | none => simp [truthyS, hfp]
    | some pc =>
      have hget : pyGet ("pk_" ++ tbl) (liveFromSpec tbl d).constraints
          = some { type := "PRIMARY KEY", column := pc } := by
        simp [liveFromSpec, hfp, pyGet]
      simp [hget]
  · rw [List.mem_flatMap] at hmem
    obtain ⟨c0, hc0, hpm⟩ := hmem
    rcases List.mem_append.mp hpm with hpm | hpm
    · by_cases hu : c0.unique = true
      · rw [if_pos hu, List.mem_singleton] at hpm
        subst hpm
        have hkm : ("uk_" ++ tbl ++ "_" ++ c0.name,
            ({ type := "UNIQUE", column := c0.name } : ExCons))
            ∈ (liveFromSpec tbl d).constraints := by
          simp only [liveFromSpec]
          refine List.mem_append.mpr (Or.inl (List.mem_append.mpr (Or.inr ?_)))
          refine List.mem_flatMap.mpr ⟨c0, hc0, ?_⟩
          rw [if_pos hu]
          exact List.mem_append.mpr (Or.inl (List.mem_singleton.mpr rfl))
        have hsome := pyGet_isSome_of_mem (List.mem_map_of_mem Prod.fst hkm)
        cases hpg : pyGet ("uk_" ++ tbl ++ "_" ++ c0.name) (liveFromSpec tbl d).constraints with
        | none => rw [hpg] at hsome; cases hsome
        | some v => simp [hpg]
      · rw [if_neg hu] at hpm
        cases hpm
    · by_cases hchk : truthyS c0.check = true
      · rw [if_pos hchk, List.mem_singleton] at hpm
        subst hpm
        have hkm : ("ck_" ++ tbl ++ "_" ++ c0.name,
            ({ type := "CHECK", column := c0.name, condition := c0.check } : ExCons))
            ∈ (liveFromSpec tbl d).constraints := by
          simp only [liveFromSpec]
          refine List.mem_append.mpr (Or.inl (List.mem_append.mpr (Or.inr ?_)))
          refine List.mem_flatMap.mpr ⟨c0, hc0, ?_⟩
          rw [if_pos hchk]
          exact List.mem_append.mpr (Or.inr (List.mem_singleton.mpr rfl))
        have hsome := pyGet_isSome_of_mem (List.mem_map_of_mem Prod.fst hkm)
        cases hpg : pyGet ("ck_" ++ tbl ++ "_" ++ c0.name) (liveFromSpec tbl d).constraints with
        | none => rw [hpg] at hsome; cases hsome
        | some v => simp [hpg]
      · rw [if_neg hchk] at hpm
        cases hpm

theorem idx_noop (tbl : String) (d : TableInfo)
    (hni : (d.indexes.map (fun i => i.name)).Nodup) :
    d.indexes.flatMap (indexStmtsFor tbl (liveFromSpec tbl d).indexes) = [] := by
  rw [List.flatMap_eq_nil_iff]
  intro i hi
  have hlk : pyGet i.name (liveFromSpec tbl d).indexes
      = some { type := i.type, unique := i.unique, columns := i.columns } := by
    simp only [liveFromSpec]
    exact pyGet_map (fun i => i.name)
      (fun i => ({ type := i.type, unique := i.unique, columns := i.columns } : ExIdx))
      d.indexes i hi hni
  simp only [indexStmtsFor]
  rw [hlk]
  simp

theorem dropIdx_noop (tbl : String) (d : TableInfo) :
    dropIdxStmts d (liveFromSpec tbl d) = [] := by
  rw [dropIdxStmts, List.filterMap_eq_nil_iff]
  intro p hp
  simp only [liveFromSpec] at hp
  obtain ⟨i, him, rfl⟩ := List.mem_map.mp hp
  have hm := memS_of_mem (List.mem_map_of_mem (fun i => i.name) him)
  simp [hm]

theorem props_noop (tbl : String) (d : TableInfo)
    (hts : d.tablespace = none) (hpl : d.parallel = none) (hcp : d.compress = none)
    (hrm : d.row_movement = none) (hcm : d.comment = none) :
    propStmts tbl d = [] := by
  simp [propStmts, tablespaceStmts, parallelStmts, compressStmts, rowMovementStmts,
    tableCommentStmts, hts, hpl, hcp, hrm, hcm, truthyS, truthyI]

/-- A desired spec whose column and index names are duplicate-free, with no
foreign keys and no specified table properties or comment, reconciled against
the matching live schema, synthesizes no statement and raises no exception. -/
theorem modify_matching_noop (tbl : String) (d : TableInfo)
    (hnd : (d.columns.map (fun c => c.name)).Nodup)
    (hni : (d.indexes.map (fun i => i.name)).Nodup)
    (hfk : d.foreign_keys = [])
    (hts : d.tablespace = none) (hpl : d.parallel = none) (hcp : d.compress = none)
    (hrm : d.row_movement = none) (hcm : d.comment = none) :
    modifyTrace tbl d (liveFromSpec tbl d) = { stmts := [], err := none } := by
  rw [modifyTrace, colPhase_noop tbl d hnd, dropCol_noop tbl d, consDropTrace,
    consDrop_noop tbl d hnd hfk, consAdd_noop tbl d, idx_noop tbl d hni,
    dropIdx_noop tbl d, hfk, props_noop tbl d hts hpl hcp hrm hcm]
  rfl

/-- C1: a state=present reconciliation against the matching live schema
issues zero statements on this input, yet the module reports changed = true
(`result['changed'] = True` runs unconditionally once `modify_table`
returns), refuting the claimed `changed = false`. -/
theorem c1_counterexample :
    (runModule "T1" .present false true specC1 (liveFromSpec "T1" specC1) okExec).applied = []
    ∧ (runModule "T1" .present false true specC1 (liveFromSpec "T1" specC1) okExec).changed
        = true := by
  decide

/-- C1 (amended): for a desired spec with duplicate-free column and index
names, no foreign keys and no specified table properties or comment, a
state=present reconciliation against a live schema that already matches it
issues zero schema-change statements - but reports changed = true, never
false.  (The restrictions are forced by the code: a desired foreign key that
exists live is unconditionally dropped and re-added, and a specified table
property or comment is unconditionally re-applied, so those specs do issue
statements even when the live table matches.) -/
theorem c1_amended (tbl : String) (d : TableInfo)
    (hnd : (d.columns.map (fun c => c.name)).Nodup)
    (hni : (d.indexes.map (fun i => i.name)).Nodup)
    (hfk : d.foreign_keys = [])
    (hts : d.tablespace = none) (hpl : d.parallel = none) (hcp : d.compress = none)
    (hrm : d.row_movement = none) (hcm : d.comment = none) :
    (runModule tbl .present false true d (liveFromSpec tbl d) okExec).applied = []
    ∧ (runModule tbl .present false true d (liveFromSpec tbl d) okExec).changed = true := by
  have hmt := modify_matching_noop tbl d hnd hni hfk hts hpl hcp hrm hcm
  refine ⟨?_, ?_⟩ <;> simp [runModule, applyTrace, hmt, runStmts]

/-- C1 witness: the amended theorem at a concrete two-column spec with a
primary key, a unique column, a check constraint and one index, against its
matching live schema. -/
theorem c1_amended_witness :
    (runModule "TW" .present false true specW1 (liveFromSpec "TW" specW1) okExec).applied = []
    ∧ (runModule "TW" .present false true specW1 (liveFromSpec "TW" specW1) okExec).changed
        = true :=
  c1_amended "TW" specW1 (by decide) (by decide) rfl rfl rfl rfl rfl rfl

theorem pairwise_of_const_phase {l : List Stmt} {p : Phase} (h : ∀ s ∈ l, s.phase = p) :
    l.Pairwise (fun a b => a.phase.idx ≤ b.phase.idx) := by
  induction l with
  | nil => exact List.Pairwise.nil
  | cons x xs ih =>
    refine List.Pairwise.cons (fun b hb => ?_)
      (ih (fun s hs => h s (List.mem_cons_of_mem _ hs)))
    rw [h x (List.mem_cons_self _ _), h b (List.mem_cons_of_mem _ hb)]

theorem seq_phase_chain {t u : Trace} {p : Phase}
    (h1 : ∀ s ∈ t.stmts, s.phase = p)
    (h2 : (u.stmts).Pairwise (fun a b => a.phase.idx ≤ b.phase.idx))
    (hge : ∀ s ∈ u.stmts, p.idx ≤ s.phase.idx) :
    ((t.seq u).stmts).Pairwise (fun a b => a.phase.idx ≤ b.phase.idx)
    ∧ ∀ s ∈ (t.seq u).stmts, p.idx ≤ s.phase.idx := by
  obtain ⟨s1, e1⟩ := t
  obtain ⟨s2, e2⟩ := u
  cases e1 with
  | none =>
    simp only [Trace.seq]
    constructor
    · refine List.pairwise_append.mpr ⟨pairwise_of_const_phase h1, h2, ?_⟩
      intro a ha b hb
      rw [h1 a ha]
      exact hge b hb
    · intro s hs
      rcases List.mem_append.mp hs with hs | hs
      · rw [h1 s hs]
      · exact hge s hs
  | some e =>
    simp only [Trace.seq]
    exact ⟨pairwise_of_const_phase h1, fun s hs => by rw [h1 s hs]⟩

theorem flatMap_phase {α : Type} (f : α → List Stmt) (l : List α) (p : Phase)
    (hf : ∀ a, ∀ s ∈ f a, s.phase = p) : ∀ s ∈ l.flatMap f, s.phase = p := by
  intro s hs
  rw [List.mem_flatMap] at hs
  obtain ⟨a, _, hsa⟩ := hs
  exact hf a s hsa

theorem colStmtsFor_phase (tbl : String) (live : LiveSchema) (c : Col) :
    ∀ s ∈ colStmtsFor tbl live c, s.phase = .colAddModify := by
  intro s hs
  simp only [colStmtsFor] at hs
  split at hs
  · simp_all
  · simp only [List.mem_append] at hs
    rcases hs with (hs | hs) | hs <;> (repeat' split at hs) <;> simp_all

theorem dropColStmts_phase (tbl : String) (d : TableInfo) (live : LiveSchema) :
    ∀ s ∈ dropColStmts tbl d live, s.phase = .colDrop := by
  intro s hs
  simp only [dropColStmts] at hs
  rw [List.mem_filterMap] at hs
  obtain ⟨a, _, ha⟩ := hs
  split at ha
  · exact Option.noConfusion ha
  · injection ha with ha2
    subst ha2
    rfl

theorem consDropTrace_stmts (tbl : String) (d : TableInfo) (live : LiveSchema) :
    (consDropTrace tbl d live).stmts = [] := rfl

theorem consAddStmts_phase (tbl : String) (d : TableInfo) (live : LiveSchema) :
    ∀ s ∈ consAddStmts tbl d live, s.phase = .constraintOp := by
  intro s hs
  simp only [consAddStmts] at hs
  rw [List.mem_filterMap] at hs
  obtain ⟨a, _, ha⟩ := hs
  repeat' split at ha
  all_goals first
    | exact Option.noConfusion ha
    | (injection ha with ha2; subst ha2; rfl)

theorem indexStmtsFor_phase (tbl : String) (existing : List (String × ExIdx)) (i : Idx) :
    ∀ s ∈ indexStmtsFor tbl existing i, s.phase = .indexOp := by
  intro s hs
  simp only [indexStmtsFor] at hs
  split at hs
  · rw [List.mem_singleton] at hs
    subst hs
    rfl
  · split at hs
    · rcases List.mem_cons.mp hs with rfl | hs
      · rfl
      · rw [List.mem_singleton] at hs
        subst hs
        rfl
    · cases hs

theorem dropIdxStmts_phase (d : TableInfo) (live : LiveSchema) :
    ∀ s ∈ dropIdxStmts d live, s.phase = .indexOp := by
  intro s hs
  simp only [dropIdxStmts] at hs
  rw [List.mem_filterMap] at hs
  obtain ⟨a, _, ha⟩ := hs
  split at ha
  · exact Option.noConfusion ha
  · injection ha with ha2
    subst ha2
    rfl

theorem fkStmtsFor_phase (tbl : String) (ecs : List (String × ExCons)) (fk : FK) :
    ∀ s ∈ fkStmtsFor tbl ecs fk, s.phase = .foreignKeyOp := by
  intro s hs
  simp only [fkStmtsFor] at hs
  split at hs
  · rw [List.mem_singleton] at hs
    subst hs
    rfl
  · rcases List.mem_cons.mp hs with rfl | hs
    · rfl
    · rw [List.mem_singleton] at hs
      subst hs
      rfl

theorem propStmts_phase (tbl : String) (d : TableInfo) :
    ∀ s ∈ propStmts tbl d, s.phase = .propertyOp := by
  intro s hs
  simp only [propStmts, tablespaceStmts, parallelStmts, compressStmts, rowMovementStmts,
    tableCommentStmts, List.mem_append] at hs
  rcases hs with ((((hs | hs) | hs) | hs) | hs) <;> (repeat' split at hs) <;> simp_all

/-- C4: in every statement sequence `modify_table` emits - including every
truncation at a failure point - the phases occur in the fixed order: column
adds/modifies, then column drops, then constraint operations, then index
operations, then foreign-key operations, then table-property operations; in
particular every DROP COLUMN statement comes after all column add/modify
statements, since `Phase.colDrop` follows `Phase.colAddModify` in the order
and the emitted phase indices are pairwise nondecreasing. -/
theorem c4_phase_order (tbl : String) (d : TableInfo) (live : LiveSchema) :
    ((modifyTrace tbl d live).stmts).Pairwise (fun a b => a.phase.idx ≤ b.phase.idx) := by
  rw [modifyTrace]
  have hprops : ∀ s ∈ (Trace.ofStmts (propStmts tbl d)).stmts, s.phase = Phase.propertyOp :=
    propStmts_phase tbl d
  have h7 := seq_phase_chain
    (t := Trace.ofStmts (d.foreign_keys.flatMap (fkStmtsFor tbl live.constraints)))
    (u := Trace.ofStmts (propStmts tbl d))
    (p := Phase.foreignKeyOp)
    (flatMap_phase _ d.foreign_keys _ (fun fk => fkStmtsFor_phase tbl live.constraints fk))
    (pairwise_of_const_phase hprops)
    (fun s hs => by rw [hprops s hs]; decide)
  have h6 := seq_phase_chain
    (t := Trace.ofStmts (dropIdxStmts d live))
    (p := Phase.indexOp)
    (dropIdxStmts_phase d live) h7.1
    (fun s hs => le_trans (by decide) (h7.2 s hs))
  have h5 := seq_phase_chain
    (t := Trace.ofStmts (d.indexes.flatMap (indexStmtsFor tbl live.indexes)))
    (p := Phase.indexOp)
    (flatMap_phase _ d.indexes _ (fun i => indexStmtsFor_phase tbl live.indexes i)) h6.1
    (fun s hs => h6.2 s hs)
  have h4 := seq_phase_chain
    (t := Trace.ofStmts (consAddStmts tbl d live))
    (p := Phase.constraintOp)
    (consAddStmts_phase tbl d live) h5.1
    (fun s hs => le_trans (by decide) (h5.2 s hs))
  have h3 := seq_phase_chain
    (t := consDropTrace tbl d live)
    (p := Phase.constraintOp)
    (fun s hs => by rw [consDropTrace_stmts] at hs; cases hs) h4.1
    (fun s hs => h4.2 s hs)
  have h2 := seq_phase_chain
    (t := Trace.ofStmts (dropColStmts tbl d live))
    (p := Phase.colDrop)
    (dropColStmts_phase tbl d live) h3.1
    (fun s hs => le_trans (by decide) (h3.2 s hs))
  have h1 := seq_phase_chain
    (t := Trace.ofStmts (d.columns.flatMap (colStmtsFor tbl live)))
    (p := Phase.colAddModify)
    (flatMap_phase _ d.columns _ (fun c => colStmtsFor_phase tbl live c)) h2.1
    (fun s hs => le_trans (by decide) (h2.2 s hs))
  exact h1.1

end OracleSqlTable
